import Mathlib

/-
Shallow embedding of the Fleece one-pass encoder (src/Fleece/Encoder_old.cc).

The encoder class holds two kinds of state: state shared by reference between
every scope (the output Writer `_out` and the string interning table
`_strings`), and per-scope fields (`_parent`, `_valPtr`, `_keyPtr`, `_valOff`,
`_keyOff`, `_count`, `_width`, `_writingKey`, `_blockedOnKey`).  We split the
C++ object accordingly into `EncShared` and `Scope`.  Raw pointers into the
output buffer are modelled as byte offsets; the NULL `_keyPtr` of the root and
of array scopes is offset 0, matching the source's `_keyPtr > 0` tests (the
key-slot block of a real dictionary always sits after its 2-byte header, so a
genuine key pointer is never 0).  Exceptions become `Except EncError`.
Machine integers are Nat/Int with explicit truncation where overflow matters;
C++ signed division (truncation toward zero) is `Int.tdiv`.
-/

namespace fleece

/-- Modelled from the spec: the tag enumeration is declared in Internal.hh,
which is not under src/.  Section 6 of the spec lists the tag space in this
order (special, short-integer, integer, float, string, binary-data, array,
dictionary) with the pointer discriminator at the top bit, which corresponds
to tags 8 and above occupying the high-bit range. -/
def kShortIntTag : Nat := 0

/-- Modelled from the spec: integer tag, see `kShortIntTag`. -/
def kIntTag : Nat := 1

/-- Modelled from the spec: float tag, see `kShortIntTag`. -/
def kFloatTag : Nat := 2

/-- Modelled from the spec: special (null/bool) tag, see `kShortIntTag`. -/
def kSpecialTag : Nat := 3

/-- Modelled from the spec: string tag, see `kShortIntTag`. -/
def kStringTag : Nat := 4

/-- Modelled from the spec: binary-data tag, see `kShortIntTag`. -/
def kBinaryTag : Nat := 5

/-- Modelled from the spec: array tag, see `kShortIntTag`. -/
def kArrayTag : Nat := 6

/-- Modelled from the spec: dictionary tag, see `kShortIntTag`. -/
def kDictTag : Nat := 7

/-- Modelled from the spec: first pointer tag; a first byte with its top bit
set is a pointer, so tags 8..15 are pointers. -/
def kPointerTagFirst : Nat := 8

/-- Modelled from the spec: special-value payload nibbles (Internal.hh). -/
def kSpecialValueNull : Nat := 0x00

/-- Modelled from the spec: special-value payload nibble for false. -/
def kSpecialValueFalse : Nat := 0x04

/-- Modelled from the spec: special-value payload nibble for true. -/
def kSpecialValueTrue : Nat := 0x08

/-- Error kinds of section 7 of the spec, one constructor per throw site of
Encoder_old.cc.  The two writeKey throw messages ("need a value after a key"
and "not a dictionary") are both classed ValueExpected / ProtocolViolation by
the spec and share the `protocolViolation` constructor. -/
inductive EncError where
  | invalidReset          -- "can only reset root encoder"
  | incompleteCollection  -- "not all items were written"
  | collectionFull        -- "no more space in collection"
  | keyExpected           -- "need a key before this value"
  | pointerOutOfRange     -- "delta too large to write value"
  | protocolViolation     -- "need a value after a key" / "not a dictionary"
  | invalidValue          -- "Can't write NaN"
  deriving DecidableEq

/-- The Output Sink: a growable byte buffer (class Writer).  Bytes are Nat
values below 256. -/
structure Writer where
  buf : List Nat
  deriving DecidableEq

/-- Current total size of the output. -/
def Writer.length (w : Writer) : Nat := w.buf.length

/-- Append bytes; returns the new buffer and the absolute position the bytes
now occupy. -/
def Writer.write (w : Writer) (bs : List Nat) : Writer × Nat :=
  (⟨w.buf ++ bs⟩, w.buf.length)

/-- Grow the buffer by n zero bytes; returns the starting position. -/
def Writer.reserveSpace (w : Writer) (n : Nat) : Writer × Nat :=
  (⟨w.buf ++ List.replicate n 0⟩, w.buf.length)

/-- Overwrite previously written or reserved bytes in place. -/
def Writer.rewrite (w : Writer) (pos : Nat) (bs : List Nat) : Writer :=
  ⟨w.buf.take pos ++ bs ++ w.buf.drop (pos + bs.length)⟩

/-- The string interning table (stringTable, a hash map from string content to
the absolute position of its most recent full instance), modelled as an
association list keyed by byte content. -/
abbrev stringTable := List (List Nat × Nat)

/-- Lookup by content (unordered_map::find). -/
def stFind (t : stringTable) (k : List Nat) : Option Nat :=
  match t with
  | [] => none
  | (k', v') :: rest => if k' = k then some v' else stFind rest k

/-- Insert if absent (unordered_map::insert does not overwrite). -/
def stInsert (t : stringTable) (k : List Nat) (v : Nat) : stringTable :=
  match stFind t k with
  | some _ => t
  | none => (k, v) :: t

/-- In-place update of an existing entry (entry->second = ...). -/
def stUpdate (t : stringTable) (k : List Nat) (v : Nat) : stringTable :=
  match t with
  | [] => []
  | (k', v') :: rest =>
    if k' = k then (k', v) :: rest else (k', v') :: stUpdate rest k v

/-- State shared by reference between the root encoder and every child scope:
the output Writer `_out` and the interning table `_strings`. -/
structure EncShared where
  out : Writer
  strings : stringTable
  deriving DecidableEq

/-- Per-scope fields of class encoder.  `hasParent` stands for
`_parent != NULL`; `valPtr`, `keyPtr` are the slot cursors as buffer offsets
(0 encodes the NULL `_keyPtr` of root and array scopes). -/
structure Scope where
  hasParent : Bool
  valPtr : Nat
  keyPtr : Nat
  valOff : Nat
  keyOff : Nat
  count : Nat
  width : Nat
  writingKey : Bool
  blockedOnKey : Bool
  deriving DecidableEq

/-- The root encoder constructor: no parent, NULL slot pointers, count 1,
width 0, not writing and not blocked on a key. -/
def rootScope : Scope :=
  { hasParent := false, valPtr := 0, keyPtr := 0, valOff := 0, keyOff := 0,
    count := 1, width := 0, writingKey := false, blockedOnKey := false }

/-- A fresh shared state: empty Writer, fresh stringTable. -/
def initEnc : EncShared := ⟨⟨[]⟩, []⟩

/-- The encoder's `reset()`: legal only on the root encoder; restores count 1,
a fresh Writer and a fresh stringTable.  Nothing else is consulted: the source
holds no links to child scopes. -/
def reset (_st : EncShared) (s : Scope) : Except EncError (EncShared × Scope) :=
  if s.hasParent then .error .invalidReset
  else .ok (initEnc, { s with count := 1 })

/-- The encoder's `end()`: throws when `_count > 0`, writes nothing. -/
def endScope (st : EncShared) (s : Scope) : Except EncError (EncShared × Scope) :=
  if s.count > 0 then .error .incompleteCollection else .ok (st, s)

/-- ORs the tag into the high nibble of the first buffer byte
(`buf[0] |= tag<<4`; the source asserts the high nibble was clear). -/
def taggedBuf (tag : Nat) (buf : List Nat) : List Nat :=
  match buf with
  | [] => []
  | b :: bs => (b ||| (tag <<< 4)) :: bs

/-- Cursor advance at the end of a non-root placement: the slot pointer and
offset of the kind just written move forward by `_width`. -/
def advanceScope (s : Scope) : Scope :=
  if s.writingKey then
    { s with keyPtr := s.keyPtr + s.width, keyOff := s.keyOff + s.width }
  else
    { s with valPtr := s.valPtr + s.width, valOff := s.valOff + s.width }

/-- The key/count tail of writeValue: a key write clears `_writingKey`
without touching `_count`; a value write decrements `_count` and, when the
scope has a key-slot block (`_keyPtr > 0`), demands a key next. -/
def countScope (s : Scope) : Scope :=
  if s.writingKey then { s with writingKey := false }
  else
    let s' := { s with count := s.count - 1 }
    if 0 < s'.keyPtr then { s' with blockedOnKey := true, writingKey := true }
    else s'

/-- The pointer delta of encoder::makePointer:
`delta = ((ssize_t)toOffset - (ssize_t)fromPos) / 2` with C++ signed
(truncating) division. -/
def pointerDelta (fromPos toOffset : Nat) : Int :=
  Int.tdiv ((toOffset : Int) - (fromPos : Int)) 2

/-- The 2-byte store of makePointer: `_enc16(delta)` (little-endian int16
image) with the top bit of the first byte ORed in as the pointer tag. -/
def ptrBytes2 (delta : Int) : List Nat :=
  let u : Nat := (delta % 0x10000).toNat
  [(u % 256) ||| 0x80, u / 256]

/-- The 4-byte store of makePointer: `_enc32(delta)` (little-endian int32
image) with the top bit of the first byte ORed in as the pointer tag. -/
def ptrBytes4 (delta : Int) : List Nat :=
  let u : Nat := (delta % 0x100000000).toNat
  [(u % 256) ||| 0x80, u / 256 % 256, u / 65536 % 256, u / 16777216 % 256]

/-- encoder::makePointer.  Computes the scaled delta, bounds-checks it
against the slot width, and produces the little-endian two's-complement
image with the pointer discriminator bit.  Returns none when the delta is
out of range.  The source asserts `_width == 4` in the else branch; as in
the release build the else branch simply encodes 32 bits. -/
def makePointer (width : Nat) (fromPos toOffset : Nat) : Option (List Nat) :=
  if width = 2 then
    if pointerDelta fromPos toOffset < -0x4000 ∨
        0x4000 ≤ pointerDelta fromPos toOffset then none
    else some (ptrBytes2 (pointerDelta fromPos toOffset))
  else
    if pointerDelta fromPos toOffset < -0x40000000 ∨
        0x40000000 ≤ pointerDelta fromPos toOffset then none
    else some (ptrBytes4 (pointerDelta fromPos toOffset))

/-- encoder::writeValue, the placement primitive.  Checks the slot count and
the key protocol, ORs in the tag for non-pointer tags, then places the bytes:
at the root they are appended; in a child scope they are written into the
current slot when they fit (`size <= _width && canInline`, zero-padded up to
the width), otherwise the output is padded to an even length, a pointer to
the new position is written into the slot, and the bytes are appended.
Returns the position the value's bytes occupy.  The `canInline` parameter
defaults to true at the C++ call sites (declaration in Encoder.hh, not under
src/; spec section 4.3 forces the out-of-line path only for non-empty
collection headers). -/
def writeValue (tag : Nat) (buf : List Nat) (canInline : Bool)
    (st : EncShared) (s : Scope) : Except EncError (EncShared × Scope × Nat) :=
  if s.count = 0 then .error .collectionFull
  else if s.blockedOnKey then .error .keyExpected
  else
    let buf := if tag < kPointerTagFirst then taggedBuf tag buf else buf
    if s.hasParent then
      let slotPtr := if s.writingKey then s.keyPtr else s.valPtr
      if buf.length ≤ s.width ∧ canInline then
        let out1 := st.out.rewrite slotPtr buf
        let out2 := if buf.length < s.width then
            out1.rewrite (slotPtr + buf.length) (List.replicate (s.width - buf.length) 0)
          else out1
        .ok ({ st with out := out2 }, countScope (advanceScope s), slotPtr)
      else
        let out1 := if st.out.length % 2 = 1 then (st.out.write [0]).1 else st.out
        match makePointer s.width (if s.writingKey then s.keyOff else s.valOff)
              out1.length with
        | none => .error .pointerOutOfRange
        | some pb =>
          let out2 := out1.rewrite slotPtr pb
          let p := out2.write buf
          .ok ({ st with out := p.1 }, countScope (advanceScope s), p.2)
    else
      let p := st.out.write buf
      .ok ({ st with out := p.1 }, countScope s, p.2)

/-- encoder::writePointerTo.  Attempts to encode a pointer to `dstOffset`
into a temporary buffer; on range failure reports false without writing,
otherwise writes the pointer through writeValue (passing `_width` bytes) and
reports true. -/
def writePointerTo (dstOffset : Nat) (st : EncShared) (s : Scope) :
    Except EncError (Bool × EncShared × Scope) :=
  match makePointer s.width (if s.writingKey then s.keyOff else s.valOff)
        dstOffset with
  | none => .ok (false, st, s)
  | some pb =>
    match writeValue kPointerTagFirst (pb.take s.width) true st s with
    | .error e => .error e
    | .ok (st', s', _) => .ok (true, st', s')

/-- Modelled from the spec: PutUVarInt lives in varint.hh, an external
collaborator specified only as "a variable-length unsigned integer"; this is
the ordinary base-128 varint with a continuation bit. -/
def putUVarInt (n : Nat) : List Nat :=
  if h : n < 0x80 then [n]
  else (n % 0x80 + 0x80) :: putUVarInt (n / 0x80)
  decreasing_by exact Nat.div_lt_self (by omega) (by omega)

/-- Little-endian byte image of u in n bytes. -/
def leBytes (u n : Nat) : List Nat :=
  match n with
  | 0 => []
  | n + 1 => (u % 256) :: leBytes (u / 256) n

/-- Drops redundant high bytes of a two's-complement image (the list here is
most-significant-first). -/
def trimHigh (isUnsigned : Bool) : List Nat → List Nat
  | [] => []
  | [b] => [b]
  | b :: c :: rest =>
    if isUnsigned then
      if b = 0 then trimHigh isUnsigned (c :: rest) else b :: c :: rest
    else
      if b = 0 ∧ c < 128 then trimHigh isUnsigned (c :: rest)
      else if b = 255 ∧ 128 ≤ c then trimHigh isUnsigned (c :: rest)
      else b :: c :: rest

/-- Modelled from the spec: PutIntOfLength (varint.hh, external collaborator)
writes the minimal little-endian two's-complement image of a 64-bit integer
and returns its length, "low 3 bits = byte-length minus 1 of the
little-endian two's-complement payload" (spec section 4.1). -/
def putIntOfLength (u : Nat) (isUnsigned : Bool) : List Nat :=
  (trimHigh isUnsigned (leBytes u 8).reverse).reverse

/-- The C++ conversion of an int64 value to its uint64 bit pattern. -/
def toU64 (i : Int) : Nat := (i % (2 ^ 64 : Int)).toNat

/-- encoder::writeInt(uint64_t i, bool isShort, bool isUnsigned).  The short
form packs the low 12 bits of i below the tag nibble (high 4 payload bits in
the first byte, low 8 in the second); the general form emits a size/flag byte
followed by the minimal little-endian payload, padded to even length. -/
def writeIntRaw (i : Nat) (isShort isUnsigned : Bool) (st : EncShared)
    (s : Scope) : Except EncError (EncShared × Scope × Nat) :=
  if isShort then
    writeValue kShortIntTag [(i >>> 8) &&& 0x0F, i &&& 0xFF] true st s
  else
    let payload := putIntOfLength i isUnsigned
    let b0 := (payload.length - 1) ||| (if isUnsigned then 0x08 else 0)
    let buf := b0 :: payload
    let buf := if buf.length % 2 = 1 then buf ++ [0] else buf
    writeValue kIntTag buf true st s

/-- encoder::writeInt(int64_t): short iff -2048 <= i < 2048. -/
def writeInt (i : Int) (st : EncShared) (s : Scope) :
    Except EncError (EncShared × Scope × Nat) :=
  writeIntRaw (toU64 i) (decide (-2048 ≤ i ∧ i < 2048)) false st s

/-- encoder::writeUInt(uint64_t): short iff i < 2048. -/
def writeUInt (i : Nat) (st : EncShared) (s : Scope) :
    Except EncError (EncShared × Scope × Nat) :=
  writeIntRaw (i % 2 ^ 64) (decide (i < 2048)) true st s

/-- A C++ double as the encoder observes it: writeDouble only evaluates
`isnan(n)`, the comparison `n == (int64_t)n`, the truncation `(int64_t)n`,
and (in the non-integral branch) the value's 8-byte little-endian image
(littleEndianDouble).  Floating-point arithmetic itself never occurs in the
encoder, so these four observations are the whole interface. -/
structure CDouble where
  isNan : Bool
  eqTrunc : Bool
  trunc : Int
  bytes : List Nat
  deriving DecidableEq

/-- A C++ float as the encoder observes it; `trunc` is `(int32_t)n` (then
promoted to int64 for writeInt), `bytes` the 4-byte little-endian image. -/
structure CFloat where
  isNan : Bool
  eqTrunc : Bool
  trunc : Int
  bytes : List Nat
  deriving DecidableEq

/-- encoder::writeDouble: NaN is rejected; a double equal to its int64
truncation is delegated to writeInt; otherwise a 2-byte header (size flag 8)
plus the 8-byte little-endian image is placed. -/
def writeDouble (n : CDouble) (st : EncShared) (s : Scope) :
    Except EncError (EncShared × Scope × Nat) :=
  if n.isNan then .error .invalidValue
  else if n.eqTrunc then writeInt n.trunc st s
  else writeValue kFloatTag (0x08 :: 0 :: n.bytes) true st s

/-- encoder::writeFloat: as writeDouble with size flag 0 and a 4-byte image. -/
def writeFloat (n : CFloat) (st : EncShared) (s : Scope) :
    Except EncError (EncShared × Scope × Nat) :=
  if n.isNan then .error .invalidValue
  else if n.eqTrunc then writeInt n.trunc st s
  else writeValue kFloatTag (0x00 :: 0 :: n.bytes) true st s

/-- encoder::writeSpecial: one payload nibble padded to 2 bytes. -/
def writeSpecial (special : Nat) (st : EncShared) (s : Scope) :
    Except EncError (EncShared × Scope × Nat) :=
  writeValue kSpecialTag [special, 0] true st s

/-- encoder::writeNull. -/
def writeNull (st : EncShared) (s : Scope) :
    Except EncError (EncShared × Scope × Nat) :=
  writeSpecial kSpecialValueNull st s

/-- encoder::writeBool. -/
def writeBool (b : Bool) (st : EncShared) (s : Scope) :
    Except EncError (EncShared × Scope × Nat) :=
  writeSpecial (if b then kSpecialValueTrue else kSpecialValueFalse) st s

/-- The header buffer built on the stack by encoder::writeData in the
out-of-line case: the size/flag byte b0 = min(size, 15), the varint length
once size >= 15, and one pad byte when size = 0. -/
def dataHeader (size : Nat) : List Nat :=
  let buf := min size 0xF :: (if 0x0F ≤ size then putUVarInt size else [])
  if size = 0 then buf ++ [0] else buf

/-- encoder::writeData(tags, slice), the literal data path for strings and
binary data: a size/flag byte whose low nibble is min(length, 15); data
shorter than the slot width is carried inline inside the tagged buffer;
otherwise the tagged header (with a varint length once length >= 15, and one
pad byte for length 0) is placed and the raw bytes are appended afterwards.
Returns the position of the raw data bytes. -/
def writeData (tag : Nat) (sdata : List Nat) (st : EncShared) (s : Scope) :
    Except EncError (EncShared × Scope × Nat) :=
  if sdata.length < s.width then
    match writeValue tag (min sdata.length 0xF :: sdata) true st s with
    | .error e => .error e
    | .ok (st', s', ptr) => .ok (st', s', ptr + 1)
  else
    match writeValue tag
        (dataHeader sdata.length)
        false st s with
    | .error e => .error e
    | .ok (st', s', _) =>
      let p := st'.out.write sdata
      .ok ({ st' with out := p.1 }, s', p.2)

/-- encoder::writeString(slice).  A string is dedup-eligible when
`_width <= size <= kMaxSharedStringSize`; kMaxSharedStringSize is declared in
Encoder.hh (not under src/), so the limit is the parameter `maxShared`.  On a
cache hit the encoder tries a pointer to the cached position; if the pointer
is out of range it updates the cache entry to `_out.length()` and returns (the
source appends no replacement literal on this path).  On a miss the literal is
written and the content is cached at the offset the source captured as
`_out.length()` before calling writeData (written inline below, which denotes
the same pre-call length since `st` is immutable). -/
def writeString (maxShared : Nat) (sdata : List Nat) (st : EncShared)
    (s : Scope) : Except EncError (EncShared × Scope) :=
  if s.width ≤ sdata.length ∧ sdata.length ≤ maxShared then
    match stFind st.strings sdata with
    | some offset =>
      match writePointerTo offset st s with
      | .error e => .error e
      | .ok (true, st', s') => .ok (st', s')
      | .ok (false, st', s') =>
        .ok ({ st' with strings := stUpdate st'.strings sdata st'.out.length }, s')
    | none =>
      match writeData kStringTag sdata st s with
      | .error e => .error e
      | .ok (st', s', _) =>
        .ok ({ st' with strings := stInsert st'.strings sdata st.out.length }, s')
  else
    match writeData kStringTag sdata st s with
    | .error e => .error e
    | .ok (st', s', _) => .ok (st', s')

/-- encoder::writeKey(slice): legal only while a key is awaited; clears
`_blockedOnKey` and writes the key string (through the interning cache) into
the key slot. -/
def writeKey (maxShared : Nat) (sdata : List Nat) (st : EncShared)
    (s : Scope) : Except EncError (EncShared × Scope) :=
  if s.blockedOnKey then
    writeString maxShared sdata st { s with blockedOnKey := false }
  else .error .protocolViolation

/-- The 2-byte array/dict header of encoder::writeArrayOrDict, before the tag
nibble is ORed in by writeValue: the count clamped to 0x07FF, high bits in
the first byte and low byte second, the wide flag at bit 3 of the first byte,
and a varint with the true count (padded to even total length) appended only
when count >= 0x0FFF. -/
def headerBytes (count : Nat) (wide : Bool) : List Nat :=
  let inlineCount := min count 0x07FF
  let b0 := inlineCount >>> 8
  let b1 := inlineCount &&& 0xFF
  let rest := if 0x0FFF ≤ count then
      (let v := putUVarInt count
       if (2 + v.length) % 2 = 1 then v ++ [0] else v)
    else []
  let b0 := if wide then b0 ||| 0x08 else b0
  b0 :: b1 :: rest

/-- The child-scope constructor `encoder(encoder&, valueType, count, wide)`
together with the parent's writeArrayOrDict: the parent places the header
(inlinable only when the collection is empty), then `count * width` slot
bytes are reserved (doubled for dictionaries, key block first), and the child
scope starts with those cursors, expecting a key iff it is a dictionary.
Returns the shared state, the updated parent scope, and the child scope. -/
def beginArrayOrDict (isDict : Bool) (count : Nat) (wide : Bool)
    (st : EncShared) (parent : Scope) :
    Except EncError (EncShared × Scope × Scope) :=
  let tag := if isDict then kDictTag else kArrayTag
  match writeValue tag (headerBytes count wide) (count = 0) st parent with
  | .error e => .error e
  | .ok (st', parent', _) =>
    let width := if wide then 4 else 2
    let space := count * width * (if isDict then 2 else 1)
    let valOff := st'.out.length
    let p := st'.out.reserveSpace space
    let child : Scope :=
      if isDict then
        { hasParent := true, valPtr := p.2 + count * width, keyPtr := p.2,
          valOff := valOff + count * width, keyOff := valOff,
          count := count, width := width, writingKey := true,
          blockedOnKey := true }
      else
        { hasParent := true, valPtr := p.2, keyPtr := 0,
          valOff := valOff, keyOff := 0,
          count := count, width := width, writingKey := false,
          blockedOnKey := false }
    .ok ({ st' with out := p.1 }, parent', child)

/-- Modelled from the spec: the reader side of the 2-byte short-integer form
is not under src/; section 4.1 describes the payload as 12-bit
two's-complement below the tag nibble. -/
def decodeShortInt (b0 b1 : Nat) : Int :=
  if 2048 ≤ (b0 % 16) * 256 + b1 then (((b0 % 16) * 256 + b1 : Nat) : Int) - 4096
  else (((b0 % 16) * 256 + b1 : Nat) : Int)

/-- The bytes a full string literal occupies at the root scope: the tagged
size/flag byte, the varint length when length >= 15, one pad byte when the
length is 0, then the raw content. -/
def stringLiteralBytes (str : List Nat) : List Nat :=
  let b0 := (min str.length 0xF) ||| (kStringTag <<< 4)
  let rest := if 0x0F ≤ str.length then putUVarInt str.length else []
  let pad := if str.length = 0 then [0] else []
  (b0 :: (rest ++ pad)) ++ str

/-! Helper lemmas about the scope-update tail of writeValue. -/

theorem advanceScope_count (s : Scope) : (advanceScope s).count = s.count := by
  unfold advanceScope; split <;> rfl

theorem advanceScope_writingKey (s : Scope) :
    (advanceScope s).writingKey = s.writingKey := by
  unfold advanceScope; split <;> rfl

theorem advanceScope_blockedOnKey (s : Scope) :
    (advanceScope s).blockedOnKey = s.blockedOnKey := by
  unfold advanceScope; split <;> rfl

theorem advanceScope_keyPtr_of_val {s : Scope} (h : s.writingKey = false) :
    (advanceScope s).keyPtr = s.keyPtr := by
  unfold advanceScope; rw [h]; simp

theorem countScope_count (s : Scope) :
    (countScope s).count = if s.writingKey then s.count else s.count - 1 := by
  unfold countScope
  by_cases h : s.writingKey <;> simp [h]
  split <;> simp

theorem countScope_blockedOnKey_of_key {s : Scope} (h : s.writingKey = true) :
    (countScope s).blockedOnKey = s.blockedOnKey := by
  unfold countScope; rw [h]; simp

theorem countScope_of_val {s : Scope} (hk : s.writingKey = false)
    (hp : 0 < s.keyPtr) :
    (countScope s).blockedOnKey = true ∧ (countScope s).writingKey = true := by
  unfold countScope; rw [hk]; simp [hp]

/-- Inversion for a successful placement: the guards held and the resulting
scope is the input scope passed through the cursor-advance (absent at the
root) and key/count tail. -/
theorem writeValue_ok_inv {tag : Nat} {buf : List Nat} {ci : Bool}
    {st st' : EncShared} {s s' : Scope} {r : Nat}
    (h : writeValue tag buf ci st s = .ok (st', s', r)) :
    s.count ≠ 0 ∧ s.blockedOnKey = false ∧
      (s' = countScope (advanceScope s) ∨ s' = countScope s) := by
  unfold writeValue at h
  have hc : s.count ≠ 0 := by
    intro hc0
    rw [if_pos hc0] at h
    exact absurd h (by simp)
  rw [if_neg hc] at h
  have hb : s.blockedOnKey = false := by
    by_contra hbn
    have hbt : s.blockedOnKey = true := by simpa using hbn
    rw [hbt] at h
    simp at h
  rw [hb] at h
  simp only [Bool.false_eq_true, if_false] at h
  refine ⟨hc, hb, ?_⟩
  by_cases hp : s.hasParent = true
  · left
    simp only [hp, if_true] at h
    repeat' split at h
    all_goals
      first
        | (simp only [Except.ok.injEq, Prod.mk.injEq] at h; exact h.2.1.symm)
        | simp at h
  · right
    rw [if_neg hp] at h
    simp only [Except.ok.injEq, Prod.mk.injEq] at h
    exact h.2.1.symm

/-- Claim C6: the remaining-slot count decreases by exactly one per value
successfully written and never on a key write; end() succeeds exactly when
the count is zero, writes nothing, and otherwise reports
IncompleteCollection. -/
theorem slotCount_invariant (tag : Nat) (buf : List Nat) (ci : Bool)
    (st st' : EncShared) (s s' : Scope) (r : Nat)
    (h : writeValue tag buf ci st s = .ok (st', s', r)) :
    (s.writingKey = false → s'.count + 1 = s.count)
  ∧ (s.writingKey = true → s'.count = s.count)
  ∧ ((endScope st s).isOk = true ↔ s.count = 0)
  ∧ (endScope st s = .ok (st, s) ∨ endScope st s = .error .incompleteCollection) := by
  obtain ⟨hc, hb, hs⟩ := writeValue_ok_inv h
  refine ⟨?_, ?_, ?_, ?_⟩
  · intro hk
    rcases hs with h1 | h1 <;> subst h1 <;>
      rw [countScope_count] <;>
      simp [advanceScope_count, advanceScope_writingKey, hk] <;>
      omega
  · intro hk
    rcases hs with h1 | h1 <;> subst h1 <;>
      rw [countScope_count] <;>
      simp [advanceScope_count, advanceScope_writingKey, hk]
  · unfold endScope
    by_cases h0 : s.count = 0
    · rw [if_neg (by omega)]
      simp [Except.isOk, Except.toBool, h0]
    · rw [if_pos (by omega)]
      simp [Except.isOk, Except.toBool, h0]
  · unfold endScope
    split <;> simp

/-- Witness for slotCount_invariant: a special value written at a fresh root
scope (which starts with count 1 and ends with count 0). -/
theorem slotCount_invariant_witness :
    (rootScope.writingKey = false →
      ({ rootScope with count := 0 } : Scope).count + 1 = rootScope.count)
  ∧ (rootScope.writingKey = true →
      ({ rootScope with count := 0 } : Scope).count = rootScope.count)
  ∧ ((endScope initEnc rootScope).isOk = true ↔ rootScope.count = 0)
  ∧ (endScope initEnc rootScope = .ok (initEnc, rootScope) ∨
      endScope initEnc rootScope = .error .incompleteCollection) :=
  slotCount_invariant 3 [0, 0] true initEnc ⟨⟨[0x30, 0]⟩, []⟩ rootScope
    { rootScope with count := 0 } 0 (by rfl)

/-! Propagation of the key/value protocol flags through a key write. -/

theorem writeValue_key_blockedOnKey {tag : Nat} {buf : List Nat} {ci : Bool}
    {st st' : EncShared} {s s' : Scope} {r : Nat}
    (h : writeValue tag buf ci st s = .ok (st', s', r))
    (hk : s.writingKey = true) : s'.blockedOnKey = s.blockedOnKey := by
  obtain ⟨-, -, h1 | h1⟩ := writeValue_ok_inv h <;> subst h1
  · rw [countScope_blockedOnKey_of_key (by rw [advanceScope_writingKey]; exact hk),
      advanceScope_blockedOnKey]
  · exact countScope_blockedOnKey_of_key hk

theorem writeData_key_blockedOnKey {tag : Nat} {d : List Nat}
    {st st' : EncShared} {s s' : Scope} {r : Nat}
    (h : writeData tag d st s = .ok (st', s', r)) (hk : s.writingKey = true) :
    s'.blockedOnKey = s.blockedOnKey := by
  unfold writeData at h
  repeat' split at h
  all_goals
    first
      | (simp only [Except.ok.injEq, Prod.mk.injEq] at h
         obtain ⟨-, h2, -⟩ := h
         subst h2
         exact writeValue_key_blockedOnKey (by assumption) hk)
      | simp at h

theorem writePointerTo_key_blockedOnKey {dst : Nat} {st st' : EncShared}
    {s s' : Scope} {fl : Bool}
    (h : writePointerTo dst st s = .ok (fl, st', s')) (hk : s.writingKey = true) :
    s'.blockedOnKey = s.blockedOnKey := by
  unfold writePointerTo at h
  split at h
  · simp only [Except.ok.injEq, Prod.mk.injEq] at h
    obtain ⟨-, -, h3⟩ := h
    subst h3; rfl
  · split at h
    · simp at h
    · simp only [Except.ok.injEq, Prod.mk.injEq] at h
      obtain ⟨-, -, h3⟩ := h
      subst h3
      exact writeValue_key_blockedOnKey (by assumption) hk

theorem writeString_key_blockedOnKey {m : Nat} {d : List Nat}
    {st st' : EncShared} {s s' : Scope}
    (h : writeString m d st s = .ok (st', s')) (hk : s.writingKey = true) :
    s'.blockedOnKey = s.blockedOnKey := by
  unfold writeString at h
  split at h
  · split at h
    · split at h
      · simp at h
      · simp only [Except.ok.injEq, Prod.mk.injEq] at h
        obtain ⟨-, h2⟩ := h
        subst h2
        exact writePointerTo_key_blockedOnKey (by assumption) hk
      · simp only [Except.ok.injEq, Prod.mk.injEq] at h
        obtain ⟨-, h2⟩ := h
        subst h2
        exact writePointerTo_key_blockedOnKey (by assumption) hk
    · split at h
      · simp at h
      · simp only [Except.ok.injEq, Prod.mk.injEq] at h
        obtain ⟨-, h2⟩ := h
        subst h2
        exact writeData_key_blockedOnKey (by assumption) hk
  · split at h
    · simp at h
    · simp only [Except.ok.injEq, Prod.mk.injEq] at h
      obtain ⟨-, h2⟩ := h
      subst h2
      exact writeData_key_blockedOnKey (by assumption) hk

/-- Claim C7: on a dictionary scope a value write while a key is outstanding
fails with KeyExpected; writeKey when no key is expected fails with
ProtocolViolation; a successful key write requires the blocked state and
leaves the scope unblocked (a value may follow), and a successful value
write on a scope with a key-slot block demands a key again, so successful
key/value writes strictly alternate. -/
theorem dict_protocol (tag : Nat) (buf key : List Nat) (ci : Bool) (m : Nat)
    (st : EncShared) (s : Scope) :
    (s.count ≠ 0 → s.blockedOnKey = true →
        writeValue tag buf ci st s = .error .keyExpected)
  ∧ (s.blockedOnKey = false → writeKey m key st s = .error .protocolViolation)
  ∧ (∀ st' s', s.writingKey = true → writeKey m key st s = .ok (st', s') →
        s.blockedOnKey = true ∧ s'.blockedOnKey = false)
  ∧ (∀ st' s' r, s.writingKey = false → 0 < s.keyPtr →
        writeValue tag buf ci st s = .ok (st', s', r) →
        s'.blockedOnKey = true ∧ s'.writingKey = true) := by
  refine ⟨?_, ?_, ?_, ?_⟩
  · intro hc hb
    unfold writeValue
    rw [if_neg hc]
    simp [hb]
  · intro hb
    unfold writeKey
    simp [hb]
  · intro st' s' hk h
    unfold writeKey at h
    by_cases hb : s.blockedOnKey = true
    · refine ⟨hb, ?_⟩
      simp only [hb, if_true] at h
      have h2 := writeString_key_blockedOnKey h hk
      simpa using h2
    · have hbf : s.blockedOnKey = false := by simpa using hb
      rw [hbf] at h
      simp at h
  · intro st' s' r hk hp h
    obtain ⟨-, -, h1 | h1⟩ := writeValue_ok_inv h <;> subst h1
    · have hk' : (advanceScope s).writingKey = false := by
        rw [advanceScope_writingKey]; exact hk
      have hp' : 0 < (advanceScope s).keyPtr := by
        rw [advanceScope_keyPtr_of_val hk]; exact hp
      exact countScope_of_val hk' hp'
    · exact countScope_of_val hk hp

/-- Witness for dict_protocol: a width-2 dictionary of one entry whose header
sits at position 0 with key slot at 2 and value slot at 4; the four conjuncts
are exercised at the corresponding concrete scope states. -/
theorem dict_protocol_witness :
    writeValue 3 [0, 0] true (⟨⟨[112, 1, 0, 0, 0, 0]⟩, []⟩ : EncShared)
        (⟨true, 4, 2, 4, 2, 1, 2, true, true⟩ : Scope) = .error .keyExpected
  ∧ writeKey 100 [97] (⟨⟨[112, 1, 0, 0, 0, 0]⟩, []⟩ : EncShared)
        (⟨true, 4, 2, 4, 2, 1, 2, false, false⟩ : Scope) = .error .protocolViolation
  ∧ ((⟨true, 4, 2, 4, 2, 1, 2, true, true⟩ : Scope).blockedOnKey = true ∧
      (⟨true, 4, 4, 4, 4, 1, 2, false, false⟩ : Scope).blockedOnKey = false)
  ∧ ((⟨true, 6, 4, 6, 4, 0, 2, true, true⟩ : Scope).blockedOnKey = true ∧
      (⟨true, 6, 4, 6, 4, 0, 2, true, true⟩ : Scope).writingKey = true) :=
  ⟨(dict_protocol 3 [0, 0] [97] true 100 ⟨⟨[112, 1, 0, 0, 0, 0]⟩, []⟩
      ⟨true, 4, 2, 4, 2, 1, 2, true, true⟩).1 (by decide) rfl,
   (dict_protocol 3 [0, 0] [97] true 100 ⟨⟨[112, 1, 0, 0, 0, 0]⟩, []⟩
      ⟨true, 4, 2, 4, 2, 1, 2, false, false⟩).2.1 rfl,
   (dict_protocol 3 [0, 0] [97] true 100 ⟨⟨[112, 1, 0, 0, 0, 0]⟩, []⟩
      ⟨true, 4, 2, 4, 2, 1, 2, true, true⟩).2.2.1 ⟨⟨[112, 1, 65, 97, 0, 0]⟩, []⟩
      ⟨true, 4, 4, 4, 4, 1, 2, false, false⟩ rfl (by rfl),
   (dict_protocol 3 [0, 0] [97] true 100 ⟨⟨[112, 1, 65, 97, 0, 0]⟩, []⟩
      ⟨true, 4, 4, 4, 4, 1, 2, false, false⟩).2.2.2 ⟨⟨[112, 1, 65, 97, 48, 0]⟩, []⟩
      ⟨true, 6, 4, 6, 4, 0, 2, true, true⟩ 4 rfl (by decide) (by rfl)⟩

/-! Helper facts for the deduplication claims. -/

theorem ptrBytes2_length (d : Int) : (ptrBytes2 d).length = 2 := rfl

theorem ptrBytes4_length (d : Int) : (ptrBytes4 d).length = 4 := rfl

theorem makePointer_length {w f t : Nat} {pb : List Nat}
    (h : makePointer w f t = some pb) (hw : w = 2 ∨ w = 4) : pb.length = w := by
  unfold makePointer at h
  rcases hw with hw2 | hw4
  · subst hw2
    rw [if_pos rfl] at h
    split at h
    · simp at h
    · simp only [Option.some.injEq] at h
      rw [← h]
      exact ptrBytes2_length _
  · subst hw4
    rw [if_neg (by omega : ¬ (4 : Nat) = 2)] at h
    split at h
    · simp at h
    · simp only [Option.some.injEq] at h
      rw [← h]
      exact ptrBytes4_length _

theorem Writer.rewrite_length (w : Writer) (pos : Nat) (bs : List Nat)
    (h : pos + bs.length ≤ w.buf.length) :
    (w.rewrite pos bs).length = w.length := by
  unfold Writer.rewrite Writer.length
  simp only [List.length_append, List.length_take, List.length_drop]
  omega

/-- Evaluation of a successful inline placement into the value slot of a
child scope with a buffer of exactly the slot width. -/
theorem writeValue_inline {tag : Nat} {buf : List Nat} {st : EncShared}
    {s : Scope}
    (hc : s.count ≠ 0) (hb : s.blockedOnKey = false) (hp : s.hasParent = true)
    (htag : ¬ tag < kPointerTagFirst) (hk : s.writingKey = false)
    (hfit : buf.length = s.width) :
    writeValue tag buf true st s =
      .ok ({ st with out := st.out.rewrite s.valPtr buf },
           countScope (advanceScope s), s.valPtr) := by
  unfold writeValue
  rw [if_neg hc]
  simp only [hb, Bool.false_eq_true, if_false]
  rw [if_neg htag]
  simp only [hp, if_true, hk, Bool.false_eq_true, if_false]
  rw [if_pos ⟨le_of_eq hfit, trivial⟩]
  rw [if_neg (by omega : ¬ buf.length < s.width)]

/-- Claim C8: a second write of a dedup-eligible cached string whose back
pointer is in range appends no bytes: the value slot is overwritten with the
relative pointer (exactly one slot width), the output length is unchanged,
and the pointer's scaled delta leads back exactly to the cached position of
the first occurrence. -/
theorem writeString_dedup_pointer (m : Nat) (str : List Nat) (off : Nat)
    (st : EncShared) (s : Scope) (pb : List Nat)
    (h1 : s.hasParent = true) (h2 : s.count ≠ 0) (h3 : s.blockedOnKey = false)
    (h4 : s.writingKey = false)
    (h5 : s.width ≤ str.length) (h6 : str.length ≤ m)
    (h7 : stFind st.strings str = some off)
    (h8 : makePointer s.width s.valOff off = some pb)
    (hw : s.width = 2 ∨ s.width = 4)
    (hb : s.valPtr + s.width ≤ st.out.buf.length)
    (hpar : off % 2 = s.valOff % 2) :
    writeString m str st s =
      .ok ({ st with out := st.out.rewrite s.valPtr pb },
           countScope (advanceScope s))
  ∧ (st.out.rewrite s.valPtr pb).length = st.out.length
  ∧ pb.length = s.width
  ∧ (s.valOff : Int) + 2 * Int.tdiv ((off : Int) - (s.valOff : Int)) 2 = (off : Int) := by
  have hlen : pb.length = s.width := makePointer_length h8 hw
  refine ⟨?_, ?_, hlen, ?_⟩
  · unfold writeString
    rw [if_pos ⟨h5, h6⟩]
    simp only [h7]
    unfold writePointerTo
    simp only [h4, Bool.false_eq_true, if_false, h8]
    rw [show List.take s.width pb = pb from by rw [← hlen, List.take_length]]
    simp only [@writeValue_inline kPointerTagFirst pb st s h2 h3 h1 (by decide) h4 hlen]
  · exact Writer.rewrite_length st.out s.valPtr pb (by omega)
  · have hd : ((off : Int) - (s.valOff : Int)) % 2 = 0 := by omega
    obtain ⟨k, hk2⟩ := Int.dvd_of_emod_eq_zero hd
    rw [hk2, Int.mul_tdiv_cancel_left k (by norm_num)]
    omega

/-- Witness for writeString_dedup_pointer: inside an array of two narrow
slots, the string written out-of-line at position 6 is written a second time
and becomes the pointer bytes 129, 0 (delta 1) in the slot at position 4. -/
theorem writeString_dedup_pointer_witness :
    writeString 100 [107, 108, 109]
        (⟨⟨[96, 2, 130, 0, 0, 0, 67, 107, 108, 109]⟩, [([107, 108, 109], 6)]⟩ : EncShared)
        (⟨true, 4, 0, 4, 0, 1, 2, false, false⟩ : Scope) =
      .ok ({ (⟨⟨[96, 2, 130, 0, 0, 0, 67, 107, 108, 109]⟩, [([107, 108, 109], 6)]⟩ : EncShared) with
              out := (⟨[96, 2, 130, 0, 0, 0, 67, 107, 108, 109]⟩ : Writer).rewrite 4 [129, 0] },
           countScope (advanceScope (⟨true, 4, 0, 4, 0, 1, 2, false, false⟩ : Scope)))
  ∧ ((⟨[96, 2, 130, 0, 0, 0, 67, 107, 108, 109]⟩ : Writer).rewrite 4 [129, 0]).length =
      (⟨[96, 2, 130, 0, 0, 0, 67, 107, 108, 109]⟩ : Writer).length
  ∧ ([129, 0] : List Nat).length = (⟨true, 4, 0, 4, 0, 1, 2, false, false⟩ : Scope).width
  ∧ ((4 : Nat) : Int) + 2 * Int.tdiv (((6 : Nat) : Int) - ((4 : Nat) : Int)) 2 = ((6 : Nat) : Int) :=
  writeString_dedup_pointer 100 [107, 108, 109] 6
    ⟨⟨[96, 2, 130, 0, 0, 0, 67, 107, 108, 109]⟩, [([107, 108, 109], 6)]⟩
    ⟨true, 4, 0, 4, 0, 1, 2, false, false⟩ [129, 0]
    rfl (by decide) rfl rfl (by decide) (by decide) (by rfl) (by rfl)
    (.inl rfl) (by decide) (by decide)

/-! Short integers. -/

theorem and_fifteen (x : Nat) : x &&& 0x0F = x % 16 := by
  have h := Nat.and_pow_two_sub_one_eq_mod x 4
  norm_num at h
  exact h

theorem and_two_fifty_five (x : Nat) : x &&& 0xFF = x % 256 := by
  have h := Nat.and_pow_two_sub_one_eq_mod x 8
  norm_num at h
  exact h

theorem shiftRight_eight (x : Nat) : x >>> 8 = x / 256 := by
  have h := Nat.shiftRight_eq_div_pow x 8
  norm_num at h
  exact h

/-- Claim C4: with -2048 <= i < 2048, writeInt takes the 2-byte
short-integer form; at the root scope the encoding appends exactly two
bytes, and the 12-bit two's-complement reading of those two bytes is exactly
i. -/
theorem writeInt_short_roundtrip (i : Int) (st : EncShared) (s : Scope)
    (h1 : -2048 ≤ i) (h2 : i < 2048)
    (hroot : s.hasParent = false) (hc : s.count ≠ 0)
    (hb : s.blockedOnKey = false) :
    ∃ b0 b1,
      writeInt i st s =
        .ok ({ st with out := ⟨st.out.buf ++ [b0, b1]⟩ }, countScope s,
             st.out.buf.length)
      ∧ decodeShortInt b0 b1 = i := by
  refine ⟨(toU64 i >>> 8) &&& 0x0F, toU64 i &&& 0xFF, ?_, ?_⟩
  · unfold writeInt writeIntRaw
    rw [if_pos (by simp [h1, h2])]
    unfold writeValue
    rw [if_neg hc]
    simp only [hb, Bool.false_eq_true, if_false]
    rw [if_pos (by decide : kShortIntTag < kPointerTagFirst)]
    simp only [hroot, Bool.false_eq_true, if_false]
    unfold taggedBuf Writer.write
    norm_num [kShortIntTag]
  · have hb0 : (toU64 i >>> 8) &&& 0x0F = toU64 i / 256 % 16 := by
      rw [shiftRight_eight, and_fifteen]
    have hb1 : toU64 i &&& 0xFF = toU64 i % 256 := and_two_fifty_five _
    rw [hb0, hb1]
    unfold decodeShortInt
    have hu : ((toU64 i : Nat) : Int) = i % (2 ^ 64 : Int) := by
      unfold toU64
      exact Int.toNat_of_nonneg (Int.emod_nonneg i (by norm_num))
    split <;> omega

/-- Witness for writeInt_short_roundtrip at i = -1 on a fresh root scope. -/
theorem writeInt_short_roundtrip_witness :
    ∃ b0 b1,
      writeInt (-1) initEnc rootScope =
        .ok ({ initEnc with out := ⟨initEnc.out.buf ++ [b0, b1]⟩ },
             countScope rootScope, initEnc.out.buf.length)
      ∧ decodeShortInt b0 b1 = -1 :=
  writeInt_short_roundtrip (-1) initEnc rootScope (by decide) (by decide)
    rfl (by decide) rfl

/-- Claim C5: a non-NaN double equal to its int64 truncation is encoded by
delegating to writeInt on that truncation, so the output states are
byte-identical; likewise for a float equal to its int32 truncation. -/
theorem writeDouble_integral_eq_writeInt (d : CDouble) (f : CFloat)
    (st : EncShared) (s : Scope)
    (hd1 : d.isNan = false) (hd2 : d.eqTrunc = true)
    (hf1 : f.isNan = false) (hf2 : f.eqTrunc = true) :
    writeDouble d st s = writeInt d.trunc st s
  ∧ writeFloat f st s = writeInt f.trunc st s := by
  constructor
  · unfold writeDouble
    simp [hd1, hd2]
  · unfold writeFloat
    simp [hf1, hf2]

/-- Witness for writeDouble_integral_eq_writeInt with the observations of the
doubles 7.0 (bytes of 0x401C000000000000) and 7.0f (bytes of 0x40E00000). -/
theorem writeDouble_integral_eq_writeInt_witness :
    writeDouble ⟨false, true, 7, [0, 0, 0, 0, 0, 0, 28, 64]⟩ initEnc rootScope =
      writeInt 7 initEnc rootScope
  ∧ writeFloat ⟨false, true, 7, [0, 0, 224, 64]⟩ initEnc rootScope =
      writeInt 7 initEnc rootScope :=
  writeDouble_integral_eq_writeInt ⟨false, true, 7, [0, 0, 0, 0, 0, 0, 28, 64]⟩
    ⟨false, true, 7, [0, 0, 224, 64]⟩ initEnc rootScope rfl rfl rfl rfl

/-! Root-scope deduplication eligibility. -/

/-- Claim C10: the root scope is built with width 0, so at the root every
string whose length is at most the shared-string limit, the empty string
included, passes the dedup-eligibility test `_width <= size <= limit`; on a
cache miss the full literal is appended and the content is inserted into the
cache at the position the value started at. -/
theorem rootScope_dedup_eligibility (m : Nat) (str : List Nat)
    (st : EncShared) (s : Scope)
    (hroot : s.hasParent = false) (hw : s.width = 0)
    (hc : s.count ≠ 0) (hb : s.blockedOnKey = false)
    (hlen : str.length ≤ m)
    (hmiss : stFind st.strings str = none) :
    rootScope.width = 0
  ∧ writeString m str st s =
      .ok (⟨⟨st.out.buf ++ stringLiteralBytes str⟩,
            (str, st.out.length) :: st.strings⟩, countScope s) := by
  have hwv : writeValue kStringTag (dataHeader str.length) false st s =
      .ok ({ st with out := ⟨st.out.buf ++ taggedBuf kStringTag (dataHeader str.length)⟩ },
           countScope s, st.out.buf.length) := by
    unfold writeValue
    rw [if_neg hc]
    simp only [hb, Bool.false_eq_true, if_false]
    rw [if_pos (by decide : kStringTag < kPointerTagFirst)]
    simp only [hroot, Bool.false_eq_true, if_false]
    rfl
  have hwd : writeData kStringTag str st s =
      .ok (⟨⟨(st.out.buf ++ taggedBuf kStringTag (dataHeader str.length)) ++ str⟩,
            st.strings⟩, countScope s,
           (st.out.buf ++ taggedBuf kStringTag (dataHeader str.length)).length) := by
    unfold writeData
    rw [if_neg (by omega : ¬ str.length < s.width)]
    rw [hwv]
    rfl
  have hbytes : taggedBuf kStringTag (dataHeader str.length) ++ str =
      stringLiteralBytes str := by
    unfold taggedBuf dataHeader stringLiteralBytes
    by_cases h0 : str.length = 0 <;> by_cases h15 : 0x0F ≤ str.length <;>
      simp [h0, h15, List.cons_append]
  refine ⟨rfl, ?_⟩
  unfold writeString
  rw [if_pos ⟨by rw [hw]; exact Nat.zero_le _, hlen⟩]
  simp only [hmiss, hwd]
  unfold stInsert
  rw [hmiss]
  rw [List.append_assoc, hbytes]

/-- Witness for rootScope_dedup_eligibility: the empty string written at a
fresh root scope is dedup-eligible and gets cached at offset 0. -/
theorem rootScope_dedup_eligibility_witness :
    rootScope.width = 0
  ∧ writeString 100 [] initEnc rootScope =
      .ok (⟨⟨initEnc.out.buf ++ stringLiteralBytes []⟩,
            ([], initEnc.out.length) :: initEnc.strings⟩, countScope rootScope) :=
  rootScope_dedup_eligibility 100 [] initEnc rootScope rfl rfl (by decide)
    rfl (by decide) rfl

/-! Claim C1: the out-of-range cache-hit fallback. -/

set_option maxRecDepth 4000 in
/-- Claim C1 evaluated at a failing input: a dedup-eligible string is cached
at offset 2, the current value slot sits at offset 32998 in a 33000-byte
document, so the backward pointer delta -16498 is out of the narrow range.
The source then merely repoints the cache entry at the current output length
and returns: no second literal is appended (the output is unchanged), the
slot is not filled, and the slot count is not decremented, contradicting the
claimed fallback write.  The scope state is the one reached inside a narrow
array after 32996 bytes of earlier values. -/
theorem writeString_outOfRange_hit_writes_nothing :
    writeString 100 [104, 105, 33]
        (⟨⟨List.replicate 33000 0⟩, [([104, 105, 33], 2)]⟩ : EncShared)
        (⟨true, 32998, 0, 32998, 0, 1, 2, false, false⟩ : Scope) =
      .ok (⟨⟨List.replicate 33000 0⟩, [([104, 105, 33], 33000)]⟩,
           ⟨true, 32998, 0, 32998, 0, 1, 2, false, false⟩) := by
  unfold writeString
  rw [if_pos (by decide :
    ((⟨true, 32998, 0, 32998, 0, 1, 2, false, false⟩ : Scope).width ≤
        ([104, 105, 33] : List Nat).length ∧
      ([104, 105, 33] : List Nat).length ≤ 100))]
  simp only [show stFind [([104, 105, 33], 2)] [104, 105, 33] = some 2 from by decide]
  unfold writePointerTo
  simp only [Bool.false_eq_true, if_false]
  simp only [show makePointer 2 32998 2 = none from by decide]
  simp only [Writer.length, List.length_replicate]
  rfl

/-! Claim C2: the long-count threshold mismatch. -/

/-- Claim C2 evaluated at a failing input: the header clamps the count to
0x07FF but appends the long-count varint only from 0x0FFF on, so the counts
2048 and 2047 produce the same 2-byte header with no varint following; a
count of 2048 is therefore not recoverable, against the claimed behavior for
every count below 0x0FFF. -/
theorem headerBytes_count_collision :
    headerBytes 2048 false = headerBytes 2047 false
  ∧ (headerBytes 2048 false).length = 2
  ∧ headerBytes 2048 false = [7, 255] := by decide

/-! Claim C3: byte order of the header count. -/

/-- Claim C3 counterexample: for the header of a non-wide collection of 258
elements the first byte carries the high bits (1) and the second byte the low
byte (2 = 258 mod 256), so the count is not stored least-significant byte
first. -/
theorem headerBytes_not_littleEndian :
    headerBytes 258 false = [1, 2]
  ∧ 258 % 256 = 2
  ∧ ¬ (headerBytes 258 false).getD 0 0 = 258 % 256
  ∧ (headerBytes 258 false).getD 1 0 = 258 % 256 := by decide

/-- Claim C3 amended: the element count in the 2-byte array/dict header is
stored most-significant byte first: for counts below 0x0800 (where the count
field is stored faithfully, see headerBytes_count_collision) the first
header byte holds the count's high bits together with the wide flag and the
second byte holds the count's low byte. -/
theorem headerBytes_count_bigEndian (count : Nat) (wide : Bool)
    (h : count < 0x0800) :
    headerBytes count wide =
      [(if wide then count / 256 ||| 0x08 else count / 256), count % 256]
  ∧ (headerBytes count wide).length = 2 := by
  unfold headerBytes
  rw [show min count 0x07FF = count from by omega]
  rw [if_neg (by omega : ¬ 0x0FFF ≤ count)]
  simp only [shiftRight_eight, and_two_fifty_five]
  exact ⟨trivial, rfl⟩

/-- Witness for headerBytes_count_bigEndian at count 300, wide. -/
theorem headerBytes_count_bigEndian_witness :
    headerBytes 300 true =
      [(if true then 300 / 256 ||| 0x08 else 300 / 256), 300 % 256]
  ∧ (headerBytes 300 true).length = 2 :=
  headerBytes_count_bigEndian 300 true (by decide)

/-! Claim C9: reset. -/

/-- Claim C9 counterexample: opening an array of two slots under the root
leaves a live child scope (count 2), yet resetting the root succeeds: the
source checks only `_parent`, it has no way to see live children. -/
theorem reset_with_live_child_succeeds :
    ∃ st1 root1 child,
      beginArrayOrDict false 2 false initEnc rootScope = .ok (st1, root1, child)
      ∧ child.count ≠ 0
      ∧ reset st1 root1 = .ok (initEnc, { root1 with count := 1 }) := by
  refine ⟨⟨⟨[96, 2, 0, 0, 0, 0]⟩, []⟩, { rootScope with count := 0 },
    ⟨true, 2, 0, 2, 0, 2, 2, false, false⟩, ?_, by decide, ?_⟩ <;> rfl

/-- Claim C9 amended: reset fails with InvalidReset exactly when called on a
non-root scope; the code performs no live-child check.  A successful reset
restores count 1, an empty output Writer and a fresh (empty) interning
cache. -/
theorem reset_spec (st : EncShared) (s : Scope) :
    (reset st s = .error .invalidReset ↔ s.hasParent = true)
  ∧ (s.hasParent = false → reset st s = .ok (initEnc, { s with count := 1 })) := by
  unfold reset
  constructor
  · by_cases hp : s.hasParent = true <;> simp [hp]
  · intro hp
    simp [hp]

/-- Witness for reset_spec on a fresh root encoder. -/
theorem reset_spec_witness :
    reset initEnc rootScope = .ok (initEnc, { rootScope with count := 1 }) :=
  (reset_spec initEnc rootScope).2 rfl

end fleece
